import Mathlib

/-!
# Verification of the PianoTrainer practice core

Shallow embedding of the practice engine of the PianoTrainer repository:
the score tracker (`modules/learning/score_tracker.py`), the falling-note
state machine and hit classification (`modules/learning/note_generator.py`),
and the MIDI file loader (`modules/midi/midi_player.py`).

Python floats are modelled as `ℚ`, Python ints as `ℤ`/`ℕ`, Python lists as
`List`, and Python dicts as insertion-ordered association lists.  Wall-clock
reads (`time.time()`) are modelled by passing the current time as an explicit
argument.  File persistence is modelled by keeping the high-score table in
the tracker state; actual disk I/O is outside the embedding.
-/

/-- Python `int(x)` applied to a float: truncation toward zero. -/
def pyInt (q : ℚ) : ℤ := if 0 ≤ q then ⌊q⌋ else ⌈q⌉

/-- The spec's scoring formula, written with `round` as the spec says
(`points = round((100 + round(100*time_accuracy) + min(combo*2, 100)) *
difficulty_multiplier)`); to be compared with the truncating arithmetic
the code actually performs in `note_hit`. -/
def specRoundPoints (time_accuracy : ℚ) (combo : ℕ) (mult : ℚ) : ℤ :=
  round ((((100 : ℤ) + round ((100 : ℚ) * time_accuracy)
            + min ((combo : ℤ) * 2) 100 : ℤ) : ℚ) * mult)

/-- A high-score record, as built by `ScoreTracker._check_high_score`
(`score_tracker.py` lines 100-105): score, accuracy, max combo and a
date string. -/
structure HSRecord where
  score : ℤ
  accuracy : ℚ
  max_combo : ℕ
  date : String
deriving DecidableEq

/-- Look up a song in the high-score table (Python dict access,
`self.high_scores[song]`, insertion-ordered); absent keys give `[]`. -/
def hsGet (song : String) : List (String × List HSRecord) → List HSRecord
  | [] => []
  | p :: ps => if p.1 = song then p.2 else hsGet song ps

/-- Write a song's list in the high-score table (Python dict assignment:
overwrite in place, or append a fresh key). -/
def hsSet (song : String) (v : List HSRecord) :
    List (String × List HSRecord) → List (String × List HSRecord)
  | [] => [(song, v)]
  | p :: ps => if p.1 = song then (song, v) :: ps else p :: hsSet song v ps

/-- Python `sorted(lst, key=lambda x: x.score, reverse=True)`:
sort descending by score. -/
def sortByScoreDesc (l : List HSRecord) : List HSRecord :=
  List.insertionSort (fun a b => b.score ≤ a.score) l

/-- The mutable state of `ScoreTracker` (`score_tracker.py` lines 17-28):
counters, combo state, score, session times, the difficulty multiplier and
the in-memory high-score table loaded from / saved to `scores.json`. -/
structure ScoreTracker where
  notes_hit : ℕ
  notes_missed : ℕ
  total_notes : ℕ
  combo : ℕ
  max_combo : ℕ
  last_hit_time : ℚ
  score : ℤ
  start_time : ℚ
  end_time : Option ℚ
  difficulty_multiplier : ℚ
  high_scores : List (String × List HSRecord)
deriving DecidableEq

/-- `ScoreTracker.reset` (lines 17-28): zero every session statistic;
the high-score table is untouched. `now` models `time.time()`. -/
def ScoreTracker.reset (s : ScoreTracker) (now : ℚ) : ScoreTracker :=
  { s with notes_hit := 0, notes_missed := 0, total_notes := 0, combo := 0,
           max_combo := 0, last_hit_time := 0, score := 0, start_time := now,
           end_time := none, difficulty_multiplier := 1 }

/-- A freshly constructed `ScoreTracker` with an empty high-score store
(`__init__` with no `scores.json` present). -/
def initTracker (now : ℚ) : ScoreTracker :=
  ScoreTracker.reset ⟨0, 0, 0, 0, 0, 0, 0, now, none, 1, []⟩ now

/-- `ScoreTracker.get_accuracy` (lines 144-154): percentage of hit notes,
guarded so the division is only reached when `total_notes ≠ 0`. -/
def ScoreTracker.get_accuracy (s : ScoreTracker) : ℚ :=
  if s.total_notes = 0 then 0
  else ((s.notes_hit : ℚ) / (s.total_notes : ℚ)) * 100

/-- `ScoreTracker.note_hit` (lines 30-55): count the hit, bump the combo and
`max_combo`, and add `int((100 + int(100*time_accuracy) + min(combo*2, 100))
* difficulty_multiplier)` points to the score. -/
def ScoreTracker.note_hit (s : ScoreTracker) (_note_number : ℤ)
    (time_accuracy : ℚ) (now : ℚ) : ScoreTracker :=
  let combo := s.combo + 1
  let accuracy_bonus : ℤ := pyInt (100 * time_accuracy)
  let combo_bonus : ℤ := min ((combo : ℤ) * 2) 100
  let points : ℤ := 100 + accuracy_bonus + combo_bonus
  let points2 : ℤ := pyInt ((points : ℚ) * s.difficulty_multiplier)
  { s with notes_hit := s.notes_hit + 1, total_notes := s.total_notes + 1,
           combo := combo, max_combo := max s.max_combo combo,
           score := s.score + points2, last_hit_time := now }

/-- `ScoreTracker.note_missed` (lines 57-66): count the miss and reset the
combo to 0 (`max_combo` is not touched). -/
def ScoreTracker.note_missed (s : ScoreTracker) (_note_number : ℤ) : ScoreTracker :=
  { s with notes_missed := s.notes_missed + 1, total_notes := s.total_notes + 1,
           combo := 0 }

/-- Python `difficulty.lower()`: lowercase each character (the keys compared
against are all ASCII). -/
def pyLower (s : String) : String := ⟨s.data.map Char.toLower⟩

/-- `ScoreTracker.set_difficulty` (lines 68-82): fixed multiplier table with
case-insensitive lookup, defaulting to 1.0. -/
def ScoreTracker.set_difficulty (s : ScoreTracker) (difficulty : String) : ScoreTracker :=
  let d := pyLower difficulty
  let m : ℚ :=
    if d = "easy" then 4/5
    else if d = "medium" then 1
    else if d = "hard" then 6/5
    else if d = "expert" then 3/2
    else 1
  { s with difficulty_multiplier := m }

/-- `ScoreTracker._check_high_score` (lines 89-118): skip zero scores,
append the session record to the per-song list (the song name is the
hard-coded `"Unknown Song"`), sort descending by score, keep the top 10. -/
def ScoreTracker.check_high_score (s : ScoreTracker) (date : String) : ScoreTracker :=
  if s.score = 0 then s
  else
    let song := "Unknown Song"
    let rec0 : HSRecord := ⟨s.score, s.get_accuracy, s.max_combo, date⟩
    let lst := hsGet song s.high_scores ++ [rec0]
    let lst := sortByScoreDesc lst
    let lst := lst.take 10
    { s with high_scores := hsSet song lst s.high_scores }

/-- `ScoreTracker.complete_session` (lines 84-87): record the end time and
run the high-score check. -/
def ScoreTracker.complete_session (s : ScoreTracker) (now : ℚ) (date : String) :
    ScoreTracker :=
  ScoreTracker.check_high_score { s with end_time := some now } date

/-- `ScoreTracker.get_high_scores` (lines 185-199): the per-song list
truncated to `limit` entries; `[]` for unknown songs. -/
def ScoreTracker.get_high_scores (s : ScoreTracker) (song_name : String)
    (limit : ℕ) : List HSRecord :=
  match s.high_scores.find? (fun p => p.1 == song_name) with
  | none => []
  | some p => p.2.take limit

/-- `get_high_scores` called without the `limit` argument (its Python
default is 5). -/
def ScoreTracker.get_high_scores_default (s : ScoreTracker) (song_name : String) :
    List HSRecord :=
  s.get_high_scores song_name 5

/-! ## Falling notes (`note_generator.py`, second prototype, lines 264-390) -/

/-- `NoteStatus` (`note_generator.py` lines 270-276). -/
inductive NoteStatus where
  | FALLING
  | HIT
  | MISSED
  | WRONG
  | EXPIRED
deriving DecidableEq

/-- `FallingNote` (`note_generator.py` lines 278-305): pitch, spawn time,
fall speed, geometry, status, feedback colour, hit timestamp, current
position and the two timing windows set by `__init__`. -/
structure FallingNote where
  note_number : ℤ
  start_time : ℚ
  speed : ℚ
  screen_height : ℚ
  target_y : ℚ
  status : NoteStatus
  color : ℕ × ℕ × ℕ
  hit_time : Option ℚ
  y : ℚ
  perfect_window : ℚ
  good_window : ℚ
deriving DecidableEq

/-- `FallingNote.__init__` (lines 280-305): status `FALLING`, cornflower
blue, no hit time, `y = 0`, windows 0.05 s and 0.15 s. -/
def mkFallingNote (note_number : ℤ) (start_time speed screen_height target_y : ℚ) :
    FallingNote :=
  ⟨note_number, start_time, speed, screen_height, target_y, NoteStatus.FALLING,
   (100, 149, 237), none, 0, 1/20, 3/20⟩

/-- `FallingNote.update` (lines 307-332): while falling, recompute `y` from
elapsed time and expire once past the bottom of the screen; hit/missed/wrong
notes are kept for 0.5 s after `hit_time`.  Returns
(still-on-screen, updated note). -/
def FallingNote.update (n : FallingNote) (current_time : ℚ) : Bool × FallingNote :=
  if n.status = NoteStatus.FALLING then
    let y := (current_time - n.start_time) * n.speed
    if y > n.screen_height then (false, { n with y := y, status := NoteStatus.EXPIRED })
    else (true, { n with y := y })
  else if n.status = NoteStatus.HIT ∨ n.status = NoteStatus.MISSED ∨
          n.status = NoteStatus.WRONG then
    if current_time - n.hit_time.getD 0 > 1/2 then (false, n) else (true, n)
  else (true, n)

/-- `FallingNote.check_hit` (lines 334-378): a no-op unless falling;
otherwise classify the press against
`timing_error = |(current_time - start_time) - target_y / speed|`
("perfect" within 0.05 s, "good" within 0.15 s, "hit" beyond, all marking
the note `HIT`; a different pitch marks it `WRONG`).  Returns
((status string, points), updated note). -/
def FallingNote.check_hit (n : FallingNote) (note_number : ℤ) (current_time : ℚ) :
    (Option String × ℤ) × FallingNote :=
  if n.status ≠ NoteStatus.FALLING then ((none, 0), n)
  else
    let elapsed := current_time - n.start_time
    let expected_time := n.target_y / n.speed
    let timing_error := |elapsed - expected_time|
    if note_number = n.note_number then
      if timing_error ≤ n.perfect_window then
        ((some "perfect", 100),
         { n with hit_time := some current_time, status := NoteStatus.HIT,
                  color := (0, 255, 0) })
      else if timing_error ≤ n.good_window then
        ((some "good", 50),
         { n with hit_time := some current_time, status := NoteStatus.HIT,
                  color := (255, 255, 0) })
      else
        ((some "hit", 25),
         { n with hit_time := some current_time, status := NoteStatus.HIT,
                  color := (255, 165, 0) })
    else
      ((some "wrong", 0),
       { n with status := NoteStatus.WRONG, color := (255, 0, 0),
                hit_time := some current_time })

/-- `FallingNote.mark_as_missed` (lines 380-390): only a falling note can
become `MISSED`. -/
def FallingNote.mark_as_missed (n : FallingNote) (current_time : ℚ) : FallingNote :=
  if n.status = NoteStatus.FALLING then
    { n with status := NoteStatus.MISSED, color := (128, 128, 128),
             hit_time := some current_time }
  else n

/-- One externally triggerable operation on a single falling note. -/
inductive NoteOp where
  | update (t : ℚ)
  | checkHit (note_number : ℤ) (t : ℚ)
  | markMissed (t : ℚ)

/-- Apply one operation to a note, keeping only the note state. -/
def applyNoteOp (op : NoteOp) (n : FallingNote) : FallingNote :=
  match op with
  | NoteOp.update t => (n.update t).2
  | NoteOp.checkHit k t => (n.check_hit k t).2
  | NoteOp.markMissed t => n.mark_as_missed t

/-- Apply a sequence of operations, oldest first. -/
def applyNoteOps (ops : List NoteOp) (n : FallingNote) : FallingNote :=
  ops.foldl (fun m op => applyNoteOp op m) n

/-! ## The hit matcher

The repository file `note_generator.py` breaks off inside the second
`NoteGenerator` (line 484, mid-statement), before the method that routes a
live key press to its `FallingNote`; only `FallingNote.check_hit` itself
survives.  The dispatch below is therefore modelled from the spec and
settles its classification with the surviving `check_hit`. -/

/-- Modelled from the spec: the `MatchResult` values of the HitMatcher
contract (`on_input(pitch, time) -> MatchResult`). -/
inductive MatchResult where
  | Perfect
  | Good
  | Hit
  | Wrong
  | NoMatch
deriving DecidableEq

/-- Map `check_hit`'s status string to the spec's `MatchResult`. -/
def toMatch : Option String → MatchResult
  | some "perfect" => MatchResult.Perfect
  | some "good" => MatchResult.Good
  | some "hit" => MatchResult.Hit
  | some "wrong" => MatchResult.Wrong
  | _ => MatchResult.NoMatch

/-- Pair each note with its index, starting from `k`. -/
def enumNotes (k : ℕ) : List FallingNote → List (ℕ × FallingNote)
  | [] => []
  | n :: ns => (k, n) :: enumNotes (k + 1) ns

/-- Of an accumulator and a list, the first entry whose note has the
strictly smallest `start_time`. -/
def pickEarliest (b : ℕ × FallingNote) : List (ℕ × FallingNote) → ℕ × FallingNote
  | [] => b
  | y :: ys => pickEarliest (if y.2.start_time < b.2.start_time then y else b) ys

/-- Modelled from the spec: among all `Active` falling notes with matching
pitch, select the one with the smallest `spawn_time` (`start_time` here);
`none` when no such note exists. -/
def selectEarliest (notes : List FallingNote) (pitch : ℤ) :
    Option (ℕ × FallingNote) :=
  match (enumNotes 0 notes).filter
      (fun p => decide (p.2.status = NoteStatus.FALLING ∧ p.2.note_number = pitch)) with
  | [] => none
  | c :: cs => some (pickEarliest c cs)

/-- Modelled from the spec: the HitMatcher's `on_input`.  With no `Active`
note of the pressed pitch the result is `NoMatch` and the notes are left
alone; otherwise the earliest-spawned candidate is classified and updated
by `FallingNote.check_hit`. -/
def on_input (notes : List FallingNote) (pitch : ℤ) (t : ℚ) :
    MatchResult × List FallingNote :=
  match selectEarliest notes pitch with
  | none => (MatchResult.NoMatch, notes)
  | some (i, c) =>
    let r := c.check_hit pitch t
    (toMatch r.1.1, notes.set i r.2)

/-! ## NoteGenerator pause/resume (`note_generator.py` lines 86-89, 214-225)

`pause()` and `resume()` read and write only the three pause/clock fields of
`NoteGenerator`; they are embedded here with the current wall-clock reading
(`time.time()`) passed explicitly. -/

/-- The pause/clock fields of `NoteGenerator` (lines 86-89). -/
structure NoteGenPause where
  paused : Bool
  pause_start_time : ℚ
  total_pause_time : ℚ
deriving DecidableEq

/-- `NoteGenerator.pause` (lines 214-218): a no-op when already paused. -/
def NoteGenPause.pause (s : NoteGenPause) (now : ℚ) : NoteGenPause :=
  if ¬ s.paused then { s with paused := true, pause_start_time := now } else s

/-- `NoteGenerator.resume` (lines 220-225): a no-op when not paused;
otherwise accumulate the pause duration. -/
def NoteGenPause.resume (s : NoteGenPause) (now : ℚ) : NoteGenPause :=
  if s.paused then
    { s with paused := false,
             total_pause_time := s.total_pause_time + (now - s.pause_start_time) }
  else s

/-! ## Scoring-engine operations

The in-session operations of `ScoreTracker`.  The spec's ScoringEngine also
reacts to a `Wrong` classification, but the code that would route `Wrong`
into the tracker lies in the truncated tail of `note_generator.py`, so that
one operation is modelled from the spec. -/

/-- One in-session scoring operation. -/
inductive ScoreOp where
  | hit (note_number : ℤ) (time_accuracy : ℚ) (now : ℚ)
  | missed (note_number : ℤ)
  | wrong
  | setDifficulty (d : String)
  | completeSession (now : ℚ) (date : String)

/-- Modelled from the spec: the ScoringEngine's reaction to a `Wrong`
classification — the combo resets to 0 (`combo ... resets to 0 on Wrong`);
no other scoring field is specified to change. -/
def onWrong (s : ScoreTracker) : ScoreTracker := { s with combo := 0 }

/-- Apply one scoring operation. -/
def applyScoreOp (op : ScoreOp) (s : ScoreTracker) : ScoreTracker :=
  match op with
  | ScoreOp.hit nn ta now => s.note_hit nn ta now
  | ScoreOp.missed nn => s.note_missed nn
  | ScoreOp.wrong => onWrong s
  | ScoreOp.setDifficulty d => s.set_difficulty d
  | ScoreOp.completeSession now date => s.complete_session now date

/-- Apply a sequence of scoring operations, oldest first. -/
def applyScoreOps (ops : List ScoreOp) (s : ScoreTracker) : ScoreTracker :=
  ops.foldl (fun s op => applyScoreOp op s) s

/-! ## MIDI file loading (`midi_player.py` lines 13-26, 106-164)

`MIDIPlayer._parse_midi_file` walks all tracks of the loaded file, keeping a
running tempo (shared across tracks), a per-track running time in seconds,
and an insertion-ordered map of open note-ons keyed by `(note, channel)`;
a note-off (or zero-velocity note-on) with an open key emits one `MidiNote`.
The `notes_by_start_time` index built alongside is playback bookkeeping and
is not modelled. -/

/-- The result record `MidiNote` (`midi_player.py` lines 13-26), without its
transient `is_playing` playback flag. -/
structure MidiNote where
  note : ℤ
  velocity : ℤ
  start_time : ℚ
  end_time : ℚ
  channel : ℤ
deriving DecidableEq

/-- The message kinds `_parse_midi_file` distinguishes. -/
inductive MidiMsgType where
  | noteOn
  | noteOff
  | setTempo
  | other
deriving DecidableEq

/-- One mido message: kind, note data, tempo payload and delta time in
ticks. -/
structure MidiMsg where
  mtype : MidiMsgType
  note : ℤ
  velocity : ℤ
  channel : ℤ
  tempo : ℤ
  time : ℕ
deriving DecidableEq

/-- `mido.tick2second(ticks, ticks_per_beat, tempo)`:
`ticks * (tempo / 1e6) / ticks_per_beat` seconds. -/
def tick2second (ticks : ℕ) (ticks_per_beat : ℕ) (tempo : ℤ) : ℚ :=
  ((ticks : ℚ) * (tempo : ℚ)) / (1000000 * (ticks_per_beat : ℚ))

/-- Python dict lookup in the open-notes map. -/
def findActive (k : ℤ × ℤ) : List ((ℤ × ℤ) × ℚ) → Option ℚ
  | [] => none
  | p :: ps => if p.1 = k then some p.2 else findActive k ps

/-- Python dict assignment in the open-notes map (overwrite in place or
append a fresh key). -/
def upsertActive (k : ℤ × ℤ) (v : ℚ) : List ((ℤ × ℤ) × ℚ) → List ((ℤ × ℤ) × ℚ)
  | [] => [(k, v)]
  | p :: ps => if p.1 = k then (k, v) :: ps else p :: upsertActive k v ps

/-- Python `del` on the open-notes map. -/
def removeActive (k : ℤ × ℤ) : List ((ℤ × ℤ) × ℚ) → List ((ℤ × ℤ) × ℚ)
  | [] => []
  | p :: ps => if p.1 = k then ps else p :: removeActive k ps

/-- The loop state of `_parse_midi_file`: running tempo, per-track running
time, open note-ons and emitted notes. -/
structure ParseState where
  tempo : ℤ
  track_time : ℚ
  active : List ((ℤ × ℤ) × ℚ)
  notes : List MidiNote
deriving DecidableEq

/-- One message step of `_parse_midi_file` (lines 119-158): advance the
track time by the delta converted at the current tempo, then dispatch on
the message kind.  Note-off events with an open key append one `MidiNote`
(velocity hard-coded to 127); orphaned closes are ignored. -/
def processMsg (tpb : ℕ) (st : ParseState) (m : MidiMsg) : ParseState :=
  let tt := st.track_time + tick2second m.time tpb st.tempo
  if m.mtype = MidiMsgType.setTempo then
    { st with track_time := tt, tempo := m.tempo }
  else if m.mtype = MidiMsgType.noteOn ∧ 0 < m.velocity then
    { st with track_time := tt,
              active := upsertActive (m.note, m.channel) tt st.active }
  else if m.mtype = MidiMsgType.noteOff ∨
          (m.mtype = MidiMsgType.noteOn ∧ m.velocity = 0) then
    match findActive (m.note, m.channel) st.active with
    | some st0 =>
      { st with track_time := tt,
                notes := st.notes ++ [⟨m.note, 127, st0, tt, m.channel⟩],
                active := removeActive (m.note, m.channel) st.active }
    | none => { st with track_time := tt }
  else { st with track_time := tt }

/-- One track of `_parse_midi_file`: the per-track time restarts at 0, the
tempo and the open-notes map carry over. -/
def parseTrack (tpb : ℕ) (st : ParseState) (track : List MidiMsg) : ParseState :=
  track.foldl (processMsg tpb) { st with track_time := 0 }

/-- `_parse_midi_file` (lines 106-158): fold all tracks from the default
tempo of 500000 µs/beat and return the emitted note list. -/
def parse_midi_file (tpb : ℕ) (tracks : List (List MidiMsg)) : List MidiNote :=
  (tracks.foldl (parseTrack tpb) ⟨500000, 0, [], []⟩).notes

/-- `MIDIPlayer.get_duration` (lines 160-164): the largest `end_time`, or 0
with no notes. -/
def get_duration (notes : List MidiNote) : ℚ :=
  match notes with
  | [] => 0
  | n :: ns => ns.foldl (fun a x => max a x.end_time) n.end_time

/-! ## Concrete inputs used by witnesses and counterexamples -/

/-- A falling note of pitch 60 spawned at 1 s. -/
def demoN1 : FallingNote := mkFallingNote 60 1 200 600 550

/-- A second falling note of pitch 60, spawned later (at 2 s). -/
def demoN2 : FallingNote := mkFallingNote 60 2 200 600 550

/-- Two simultaneously active falling notes of the same pitch. -/
def demoNotes : List FallingNote := [demoN1, demoN2]

/-- A note already marked `HIT` (hit at time 2 s). -/
def demoHitNote : FallingNote :=
  { mkFallingNote 60 1 200 600 550 with status := NoteStatus.HIT, hit_time := some 2 }

/-- Eleven completed sessions for the one (hard-coded) song with strictly
increasing positive scores 1, 2, ..., 11. -/
def elevenSessions : ScoreTracker :=
  (List.range 11).foldl
    (fun s k => ScoreTracker.complete_session { s with score := (k : ℤ) + 1 } 0 "d")
    (initTracker 0)

/-- A single-track MIDI input in which the later-starting note (pitch 62)
ends before the earlier-starting one (pitch 60): on 60, on 62, off 62,
off 60, each 480 ticks apart. -/
def cexTrack : List MidiMsg :=
  [⟨MidiMsgType.noteOn, 60, 64, 0, 0, 0⟩,
   ⟨MidiMsgType.noteOn, 62, 64, 0, 0, 480⟩,
   ⟨MidiMsgType.noteOff, 62, 0, 0, 0, 480⟩,
   ⟨MidiMsgType.noteOff, 60, 0, 0, 0, 480⟩]

/-- A single orphaned note-on (pitch 60) with no matching note-off. -/
def orphanOn : MidiMsg := ⟨MidiMsgType.noteOn, 60, 64, 0, 0, 0⟩

/-! ## Helper lemmas -/

/-- A note whose status is `HIT`, `MISSED` or `WRONG` is left untouched by
every operation. -/
theorem applyNoteOp_frozen (op : NoteOp) (n : FallingNote)
    (h : n.status = NoteStatus.HIT ∨ n.status = NoteStatus.MISSED ∨
         n.status = NoteStatus.WRONG) :
    applyNoteOp op n = n := by
  have hne : ¬ n.status = NoteStatus.FALLING := by
    rcases h with h | h | h <;> simp [h]
  cases op with
  | update t =>
    simp only [applyNoteOp, FallingNote.update, if_neg hne, if_pos h]
    split <;> rfl
  | checkHit k t =>
    simp [applyNoteOp, FallingNote.check_hit, hne]
  | markMissed t =>
    simp [applyNoteOp, FallingNote.mark_as_missed, hne]

/-! ## C5: falling-note status monotonicity -/

/-- C5: for every `FallingNote` and every sequence of
`update`/`check_hit`/`mark_as_missed` operations, once the status is in
`{HIT, MISSED, WRONG}` no subsequent operation changes it. -/
theorem fallingNote_status_monotonic (n : FallingNote) (ops : List NoteOp)
    (h : n.status = NoteStatus.HIT ∨ n.status = NoteStatus.MISSED ∨
         n.status = NoteStatus.WRONG) :
    (applyNoteOps ops n).status = n.status := by
  induction ops generalizing n with
  | nil => rfl
  | cons op ops ih =>
    show (applyNoteOps ops (applyNoteOp op n)).status = n.status
    rw [applyNoteOp_frozen op n h]
    exact ih n h

/-- Witness for C5: a note already marked `HIT` survives an update, a wrong
re-press, a late miss-marking and a matching re-press unchanged. -/
theorem fallingNote_status_monotonic_witness :
    (applyNoteOps
      [NoteOp.update 2, NoteOp.checkHit 61 2, NoteOp.markMissed 3,
       NoteOp.checkHit 60 4, NoteOp.update 9] demoHitNote).status
      = demoHitNote.status :=
  fallingNote_status_monotonic demoHitNote
    [NoteOp.update 2, NoteOp.checkHit 61 2, NoteOp.markMissed 3,
     NoteOp.checkHit 60 4, NoteOp.update 9] (Or.inl rfl)

/-! ## C9: pause/resume are no-ops in the wrong state -/

/-- C9: calling `pause()` while already paused and `resume()` while not
paused leave every pause/clock field unchanged. -/
theorem pause_resume_noops (now : ℚ) (s r : NoteGenPause)
    (hs : s.paused = true) (hr : r.paused = false) :
    s.pause now = s ∧ r.resume now = r := by
  constructor
  · simp [NoteGenPause.pause, hs]
  · simp [NoteGenPause.resume, hr]

/-- Witness for C9 at concrete states. -/
theorem pause_resume_noops_witness :
    NoteGenPause.pause ⟨true, 2, 3⟩ 5 = ⟨true, 2, 3⟩ ∧
    NoteGenPause.resume ⟨false, 2, 3⟩ 5 = ⟨false, 2, 3⟩ :=
  pause_resume_noops 5 ⟨true, 2, 3⟩ ⟨false, 2, 3⟩ rfl rfl

/-! ## C10: accuracy of an empty session -/

/-- C10: with no processed notes the accuracy query returns exactly 0 and
the division is reached only under the guard `total_notes ≠ 0`. -/
theorem get_accuracy_total (s r : ScoreTracker)
    (hs : s.total_notes = 0) (hr : r.total_notes ≠ 0) :
    s.get_accuracy = 0 ∧
    r.get_accuracy = ((r.notes_hit : ℚ) / (r.total_notes : ℚ)) * 100 := by
  constructor
  · simp [ScoreTracker.get_accuracy, hs]
  · simp [ScoreTracker.get_accuracy, hr]

/-- Witness for C10: an empty session reports accuracy 0; a session with
one hit of two notes reaches the division branch. -/
theorem get_accuracy_total_witness :
    (initTracker 0).get_accuracy = 0 ∧
    ({ initTracker 0 with total_notes := 2, notes_hit := 1 } :
        ScoreTracker).get_accuracy
      = ((({ initTracker 0 with total_notes := 2, notes_hit := 1 } :
        ScoreTracker).notes_hit : ℚ)
          / (({ initTracker 0 with total_notes := 2, notes_hit := 1 } :
        ScoreTracker).total_notes : ℚ)) * 100 :=
  get_accuracy_total (initTracker 0)
    { initTracker 0 with total_notes := 2, notes_hit := 1 } rfl (by decide)

/-! ## C4: combo and max-combo discipline -/

/-- No single in-session scoring operation decreases `max_combo`. -/
theorem applyScoreOp_max_combo_mono (op : ScoreOp) (s : ScoreTracker) :
    s.max_combo ≤ (applyScoreOp op s).max_combo := by
  cases op with
  | hit nn ta now =>
    simp [applyScoreOp, ScoreTracker.note_hit]
  | missed nn => simp [applyScoreOp, ScoreTracker.note_missed]
  | wrong => simp [applyScoreOp, onWrong]
  | setDifficulty d => simp [applyScoreOp, ScoreTracker.set_difficulty]
  | completeSession now date =>
    simp only [applyScoreOp, ScoreTracker.complete_session,
      ScoreTracker.check_high_score]
    split <;> simp

/-- C4: within a session, a `Wrong` classification and a registered miss
reset the combo to 0 immediately, every hit increments it by exactly 1, and
`max_combo` never decreases over any sequence of scoring operations. -/
theorem combo_discipline (s : ScoreTracker) :
    (applyScoreOp ScoreOp.wrong s).combo = 0
    ∧ (∀ nn : ℤ, (applyScoreOp (ScoreOp.missed nn) s).combo = 0)
    ∧ (∀ (nn : ℤ) (ta now : ℚ),
        (applyScoreOp (ScoreOp.hit nn ta now) s).combo = s.combo + 1)
    ∧ ∀ ops : List ScoreOp, s.max_combo ≤ (applyScoreOps ops s).max_combo := by
  refine ⟨rfl, fun nn => rfl, fun nn ta now => rfl, ?_⟩
  intro ops
  induction ops generalizing s with
  | nil => exact le_refl _
  | cons op ops ih =>
    exact le_trans (applyScoreOp_max_combo_mono op s) (ih (applyScoreOp op s))

/-! ## C2: scoring formula -/

/-- Counterexample for C2: at `time_accuracy = 249/250` (combo 1,
multiplier 1.0) the code awards `100 + int(99.6) + 2 = 201` points while the
claimed rounding formula gives `100 + round(99.6) + 2 = 202`. -/
theorem note_hit_round_cex :
    ((initTracker 0).note_hit 60 (249/250) 0).score = 201
    ∧ specRoundPoints (249/250) 1 1 = 202
    ∧ (201 : ℤ) ≠ 202 := by
  refine ⟨?_, ?_, by decide⟩
  · norm_num [initTracker, ScoreTracker.reset, ScoreTracker.note_hit, pyInt]
  · norm_num [specRoundPoints, round_eq]

/-- C2 amended: each hit awards
`int((100 + int(100*time_accuracy) + min(combo*2, 100)) *
difficulty_multiplier)` points — Python `int` truncation, not `round` — and
the hard-difficulty Perfect hit at resulting combo 1 still awards 242. -/
theorem note_hit_points (s : ScoreTracker) (nn : ℤ) (ta now : ℚ) :
    (s.note_hit nn ta now).score
      = s.score + pyInt ((((100 : ℤ) + pyInt (100 * ta)
          + min (((s.combo : ℤ) + 1) * 2) 100 : ℤ) : ℚ) * s.difficulty_multiplier)
    ∧ (((initTracker 0).set_difficulty "hard").note_hit 60 1 0).score = 242 := by
  constructor
  · rfl
  · have h : pyLower "hard" = "hard" := by decide
    norm_num [initTracker, ScoreTracker.reset, ScoreTracker.note_hit,
      ScoreTracker.set_difficulty, pyInt, h,
      show ("hard" : String) ≠ "easy" from by decide,
      show ("hard" : String) ≠ "medium" from by decide]

/-! ## C8: high-score truncation -/

/-- Counterexample for C8: after the 11 strictly increasing sessions,
`get_high_scores` called as the code's default (`limit = 5`) returns 5
records, not 10. -/
theorem get_high_scores_default_cex :
    (elevenSessions.get_high_scores_default "Unknown Song").length = 5
    ∧ (5 : ℕ) ≠ 10 := by
  constructor
  · decide
  · decide

/-- C8 amended: each completion appends one record, re-sorts descending and
truncates the per-song list to 10, and `get_high_scores` returns the top
`min(limit, 10)` records (`limit` defaults to 5); with `limit = 10` the
eleven increasing sessions yield exactly the 10 best records, descending,
with the lowest-scoring first session excluded. -/
theorem get_high_scores_eleven :
    (elevenSessions.get_high_scores "Unknown Song" 10).map (fun r => r.score)
      = [11, 10, 9, 8, 7, 6, 5, 4, 3, 2]
    ∧ (elevenSessions.get_high_scores "Unknown Song" 10).length = 10
    ∧ List.Sorted (fun a b : HSRecord => b.score ≤ a.score)
        (elevenSessions.get_high_scores "Unknown Song" 10)
    ∧ (∀ r ∈ elevenSessions.get_high_scores "Unknown Song" 10, r.score ≠ 1)
    ∧ (elevenSessions.get_high_scores_default "Unknown Song").map (fun r => r.score)
      = [11, 10, 9, 8, 7] := by
  refine ⟨by decide, by decide, by decide, by decide, by decide⟩

/-! ## C6: orphaned note-ons -/

/-- A note-on with positive velocity only opens the notes map; it never
emits a `MidiNote`. -/
theorem processMsg_noteOn_notes (tpb : ℕ) (st : ParseState) (m : MidiMsg)
    (ht : m.mtype = MidiMsgType.noteOn) (hv : 0 < m.velocity) :
    (processMsg tpb st m).notes = st.notes := by
  simp [processMsg, ht, hv]

/-- Counterexample for C6: a file consisting of one orphaned note-on
produces an empty event list — no `ScoreEvent` is emitted for the orphan. -/
theorem orphan_dropped_cex :
    parse_midi_file 480 [[orphanOn]] = []
    ∧ ¬ ∃ e ∈ parse_midi_file 480 [[orphanOn]], e.note = 60 := by
  refine ⟨rfl, ?_⟩
  rw [show parse_midi_file 480 [[orphanOn]] = [] from rfl]
  simp

/-- C6 amended: orphaned note-ons are silently dropped — appending a
trailing note-on (positive velocity) that is never closed leaves the
emitted event list unchanged. -/
theorem orphan_dropped (tpb : ℕ) (tracks : List (List MidiMsg)) (m : MidiMsg)
    (ht : m.mtype = MidiMsgType.noteOn) (hv : 0 < m.velocity) :
    parse_midi_file tpb (tracks ++ [[m]]) = parse_midi_file tpb tracks := by
  unfold parse_midi_file
  rw [List.foldl_append]
  simp only [List.foldl_cons, List.foldl_nil, parseTrack]
  rw [processMsg_noteOn_notes tpb _ m ht hv]

/-- Witness for C6: a closed pair of pitch 60 followed by an orphaned
note-on of pitch 61 parses to the same events as the pair alone. -/
theorem orphan_dropped_witness :
    parse_midi_file 480
        [[⟨MidiMsgType.noteOn, 60, 64, 0, 0, 0⟩,
          ⟨MidiMsgType.noteOff, 60, 0, 0, 0, 480⟩],
         [⟨MidiMsgType.noteOn, 61, 64, 0, 0, 0⟩]]
      = parse_midi_file 480
        [[⟨MidiMsgType.noteOn, 60, 64, 0, 0, 0⟩,
          ⟨MidiMsgType.noteOff, 60, 0, 0, 0, 480⟩]] :=
  orphan_dropped 480
    [[⟨MidiMsgType.noteOn, 60, 64, 0, 0, 0⟩,
      ⟨MidiMsgType.noteOff, 60, 0, 0, 0, 480⟩]]
    ⟨MidiMsgType.noteOn, 61, 64, 0, 0, 0⟩ rfl (by decide)

/-! ## C7: order of the emitted event list -/

/-- Every branch of `processMsg` advances the track time by the converted
delta. -/
theorem processMsg_track_time (tpb : ℕ) (st : ParseState) (m : MidiMsg) :
    (processMsg tpb st m).track_time
      = st.track_time + tick2second m.time tpb st.tempo := by
  unfold processMsg
  split
  · rfl
  · split
    · rfl
    · split
      · split <;> rfl
      · rfl

/-- `processMsg` keeps the tempo non-negative when every tempo event
carries a non-negative tempo. -/
theorem processMsg_tempo_nonneg (tpb : ℕ) (st : ParseState) (m : MidiMsg)
    (h0 : 0 ≤ st.tempo) (hm : m.mtype = MidiMsgType.setTempo → 0 ≤ m.tempo) :
    0 ≤ (processMsg tpb st m).tempo := by
  unfold processMsg
  split
  · next h => exact hm h
  · split
    · exact h0
    · split
      · split <;> exact h0
      · exact h0

/-- Converted deltas are non-negative at non-negative tempo. -/
theorem tick2second_nonneg (ticks tpb : ℕ) (tempo : ℤ) (h : 0 ≤ tempo) :
    0 ≤ tick2second ticks tpb tempo := by
  unfold tick2second
  apply div_nonneg
  · exact mul_nonneg (by positivity) (by exact_mod_cast h)
  · positivity

/-- Each `processMsg` step either leaves the emitted notes alone or appends
one note whose end time is the new track time. -/
theorem processMsg_notes_cases (tpb : ℕ) (st : ParseState) (m : MidiMsg) :
    (processMsg tpb st m).notes = st.notes
    ∨ ∃ x : MidiNote, (processMsg tpb st m).notes = st.notes ++ [x]
        ∧ x.end_time = st.track_time + tick2second m.time tpb st.tempo := by
  unfold processMsg
  split
  · exact Or.inl rfl
  · split
    · exact Or.inl rfl
    · split
      · split
        · next st0 _ =>
          exact Or.inr ⟨⟨m.note, 127, st0, _, m.channel⟩, rfl, rfl⟩
        · exact Or.inl rfl
      · exact Or.inl rfl

/-- Folding a track over `processMsg` keeps the emitted end times sorted
and bounded by the running track time, and the tempo non-negative. -/
theorem processMsg_fold_inv (tpb : ℕ) :
    ∀ (track : List MidiMsg) (st : ParseState),
    0 ≤ st.tempo →
    (∀ m ∈ track, m.mtype = MidiMsgType.setTempo → 0 ≤ m.tempo) →
    List.Sorted (· ≤ ·) (st.notes.map (fun n => n.end_time)) →
    (∀ n ∈ st.notes, n.end_time ≤ st.track_time) →
    List.Sorted (· ≤ ·)
        ((track.foldl (processMsg tpb) st).notes.map (fun n => n.end_time))
    ∧ (∀ n ∈ (track.foldl (processMsg tpb) st).notes,
        n.end_time ≤ (track.foldl (processMsg tpb) st).track_time) := by
  intro track
  induction track with
  | nil => intro st _ _ hsort hbound; exact ⟨hsort, hbound⟩
  | cons m ms ih =>
    intro st h0 hm hsort hbound
    have hdelta : 0 ≤ tick2second m.time tpb st.tempo :=
      tick2second_nonneg m.time tpb st.tempo h0
    have htime : (processMsg tpb st m).track_time
        = st.track_time + tick2second m.time tpb st.tempo :=
      processMsg_track_time tpb st m
    have h0s : 0 ≤ (processMsg tpb st m).tempo :=
      processMsg_tempo_nonneg tpb st m h0 (hm m (List.mem_cons_self m ms))
    have hms : ∀ x ∈ ms, x.mtype = MidiMsgType.setTempo → 0 ≤ x.tempo :=
      fun x hx => hm x (List.mem_cons_of_mem m hx)
    rcases processMsg_notes_cases tpb st m with hsame | ⟨x, happ, hend⟩
    · refine ih (processMsg tpb st m) h0s hms ?_ ?_
      · rw [hsame]; exact hsort
      · rw [hsame, htime]
        intro n hn
        exact le_trans (hbound n hn) (by linarith)
    · refine ih (processMsg tpb st m) h0s hms ?_ ?_
      · rw [happ, List.map_append]
        refine List.pairwise_append.mpr ⟨hsort, by simp, ?_⟩
        intro a ha b hb
        simp only [List.map_cons, List.map_nil, List.mem_singleton] at hb
        simp only [List.mem_map] at ha
        obtain ⟨n, hn, rfl⟩ := ha
        rw [hb, hend]
        exact le_trans (hbound n hn) (by linarith)
      · rw [happ, htime]
        intro n hn
        rcases List.mem_append.mp hn with hn | hn
        · exact le_trans (hbound n hn) (by linarith)
        · rw [List.mem_singleton.mp hn, hend]

/-- Counterexample for C7: two overlapping notes (the later-starting pitch
62 ends first) parse to an event list whose start times are `[0.5, 0]` —
not sorted by start time. -/
theorem parse_unsorted_cex :
    (parse_midi_file 480 [cexTrack]).map (fun n => n.start_time) = [1/2, 0]
    ∧ ¬ List.Sorted (· ≤ ·)
        ((parse_midi_file 480 [cexTrack]).map (fun n => n.start_time)) := by
  have h : parse_midi_file 480 [cexTrack]
      = [⟨62, 127, 1/2, 1, 0⟩, ⟨60, 127, 0, 3/2, 0⟩] := by
    norm_num [cexTrack, parse_midi_file, parseTrack, processMsg, tick2second,
      findActive, upsertActive, removeActive,
      show MidiMsgType.noteOn ≠ MidiMsgType.setTempo from by decide,
      show MidiMsgType.noteOff ≠ MidiMsgType.setTempo from by decide,
      show MidiMsgType.noteOff ≠ MidiMsgType.noteOn from by decide]
  rw [h]
  refine ⟨rfl, ?_⟩
  intro hsorted
  have := (List.sorted_cons.mp hsorted).1 0 (by simp)
  norm_num at this

/-- C7 amended: the loader emits events in note-off order, so within a
single track (with non-negative tempo events) the event list is sorted by
`end_time`, not by `start_time`. -/
theorem parse_sorted_by_end (tpb : ℕ) (track : List MidiMsg)
    (ht : ∀ m ∈ track, m.mtype = MidiMsgType.setTempo → 0 ≤ m.tempo) :
    List.Sorted (· ≤ ·)
      ((parse_midi_file tpb [track]).map (fun n => n.end_time)) := by
  have h := processMsg_fold_inv tpb track ⟨500000, 0, [], []⟩
    (by norm_num) ht (by simp) (by simp)
  simpa [parse_midi_file, parseTrack] using h.1

/-- Witness for C7: the overlapping-note track is sorted by end time even
though it is not sorted by start time. -/
theorem parse_sorted_by_end_witness :
    List.Sorted (· ≤ ·)
      ((parse_midi_file 480 [cexTrack]).map (fun n => n.end_time)) :=
  parse_sorted_by_end 480 cexTrack (by decide)

/-! ## Matcher lemmas for C1 and C3 -/

/-- An indexed entry of `enumNotes k l` points back into the list. -/
theorem enumNotes_get : ∀ (l : List FallingNote) (k i : ℕ) (n : FallingNote),
    (i, n) ∈ enumNotes k l → ∃ j, i = k + j ∧ l[j]? = some n := by
  intro l
  induction l with
  | nil => intro k i n h; simp [enumNotes] at h
  | cons a l ih =>
    intro k i n h
    simp only [enumNotes, List.mem_cons, Prod.mk.injEq] at h
    rcases h with ⟨hi, hn⟩ | h
    · exact ⟨0, by omega, by simp [hn]⟩
    · obtain ⟨j, hj, hg⟩ := ih (k + 1) i n h
      exact ⟨j + 1, by omega, by simpa using hg⟩

/-- Every list member appears in `enumNotes k l` at some index. -/
theorem enumNotes_mem_of_mem : ∀ (l : List FallingNote) (k : ℕ) (n : FallingNote),
    n ∈ l → ∃ i, (i, n) ∈ enumNotes k l := by
  intro l
  induction l with
  | nil => intro k n h; simp at h
  | cons a l ih =>
    intro k n h
    rcases List.mem_cons.mp h with rfl | h
    · exact ⟨k, by simp [enumNotes]⟩
    · obtain ⟨i, hi⟩ := ih (k + 1) n h
      exact ⟨i, by simp [enumNotes, hi]⟩

/-- `pickEarliest` returns its accumulator or a list entry. -/
theorem pickEarliest_mem : ∀ (l : List (ℕ × FallingNote)) (b : ℕ × FallingNote),
    pickEarliest b l = b ∨ pickEarliest b l ∈ l := by
  intro l
  induction l with
  | nil => intro b; exact Or.inl rfl
  | cons y ys ih =>
    intro b
    simp only [pickEarliest]
    rcases ih (if y.2.start_time < b.2.start_time then y else b) with h | h
    · rw [h]
      split
      · exact Or.inr (List.mem_cons_self _ _)
      · exact Or.inl rfl
    · exact Or.inr (List.mem_cons_of_mem y h)

/-- `pickEarliest` never returns a later spawn time than its accumulator. -/
theorem pickEarliest_le_acc : ∀ (l : List (ℕ × FallingNote)) (b : ℕ × FallingNote),
    (pickEarliest b l).2.start_time ≤ b.2.start_time := by
  intro l
  induction l with
  | nil => intro b; exact le_refl _
  | cons y ys ih =>
    intro b
    simp only [pickEarliest]
    refine le_trans (ih _) ?_
    split
    · next h => exact le_of_lt h
    · exact le_refl _

/-- `pickEarliest` never returns a later spawn time than any list entry. -/
theorem pickEarliest_le_mem : ∀ (l : List (ℕ × FallingNote)) (b y : ℕ × FallingNote),
    y ∈ l → (pickEarliest b l).2.start_time ≤ y.2.start_time := by
  intro l
  induction l with
  | nil => intro b y h; simp at h
  | cons z zs ih =>
    intro b y h
    rcases List.mem_cons.mp h with rfl | h
    · simp only [pickEarliest]
      refine le_trans (pickEarliest_le_acc _ _) ?_
      split
      · exact le_refl _
      · next hlt => exact le_of_not_lt hlt
    · exact ih _ y h

/-- With no active note of the pressed pitch, `selectEarliest` finds
nothing. -/
theorem selectEarliest_eq_none (notes : List FallingNote) (pitch : ℤ)
    (h : ∀ n ∈ notes, ¬(n.status = NoteStatus.FALLING ∧ n.note_number = pitch)) :
    selectEarliest notes pitch = none := by
  unfold selectEarliest
  have hf : (enumNotes 0 notes).filter
      (fun p => decide (p.2.status = NoteStatus.FALLING ∧ p.2.note_number = pitch))
      = [] := by
    rw [List.filter_eq_nil_iff]
    intro p hp
    obtain ⟨j, _, hg⟩ := enumNotes_get notes 0 p.1 p.2 hp
    simp only [decide_eq_true_eq]
    exact h p.2 (List.getElem?_mem hg)
  rw [hf]

/-- What `selectEarliest` returns: a falling note of the pressed pitch,
found at its reported index, with the smallest spawn time among all such
notes. -/
theorem selectEarliest_eq_some (notes : List FallingNote) (pitch : ℤ)
    (i : ℕ) (c : FallingNote)
    (h : selectEarliest notes pitch = some (i, c)) :
    notes[i]? = some c
    ∧ c.status = NoteStatus.FALLING ∧ c.note_number = pitch
    ∧ ∀ n ∈ notes, n.status = NoteStatus.FALLING → n.note_number = pitch →
        c.start_time ≤ n.start_time := by
  unfold selectEarliest at h
  rcases hf : (enumNotes 0 notes).filter
      (fun p => decide (p.2.status = NoteStatus.FALLING ∧ p.2.note_number = pitch))
      with _ | ⟨d, ds⟩
  · rw [hf] at h; exact absurd h (by simp)
  · rw [hf] at h
    have hpick : pickEarliest d ds = (i, c) := by
      have := Option.some.inj h
      exact this
    have hmem : (i, c) ∈ d :: ds := by
      rcases pickEarliest_mem ds d with hp | hp
      · rw [hpick] at hp; rw [← hp]; exact List.mem_cons_self _ _
      · rw [hpick] at hp; exact List.mem_cons_of_mem d hp
    have hmemf : (i, c) ∈ (enumNotes 0 notes).filter
        (fun p => decide (p.2.status = NoteStatus.FALLING ∧ p.2.note_number = pitch)) := by
      rw [hf]; exact hmem
    have hc := List.mem_filter.mp hmemf
    have hcand : c.status = NoteStatus.FALLING ∧ c.note_number = pitch := by
      simpa using hc.2
    obtain ⟨j, hj, hg⟩ := enumNotes_get notes 0 i c hc.1
    have hij : i = j := by omega
    refine ⟨by rw [hij]; exact hg, hcand.1, hcand.2, ?_⟩
    · intro n hn hs hp
      obtain ⟨idx, hidx⟩ := enumNotes_mem_of_mem notes 0 n hn
      have hinf : (idx, n) ∈ (enumNotes 0 notes).filter
          (fun p => decide (p.2.status = NoteStatus.FALLING ∧ p.2.note_number = pitch)) := by
        rw [List.mem_filter]
        exact ⟨hidx, by simp [hs, hp]⟩
      rw [hf] at hinf
      rcases List.mem_cons.mp hinf with hd | hds
      · have := pickEarliest_le_acc ds d
        rw [hpick, ← hd] at this
        exact this
      · have := pickEarliest_le_mem ds d (idx, n) hds
        rw [hpick] at this
        exact this

/-- `check_hit` on a falling note of the pressed pitch always marks it
`HIT` and classifies by `|input_time - (start_time + target_y / speed)|`
against the two windows. -/
theorem check_hit_candidate (c : FallingNote) (pitch : ℤ) (t : ℚ)
    (hs : c.status = NoteStatus.FALLING) (hn : c.note_number = pitch) :
    ((c.check_hit pitch t).2).status = NoteStatus.HIT
    ∧ (c.check_hit pitch t).1.1 =
      (if |t - (c.start_time + c.target_y / c.speed)| ≤ c.perfect_window
       then some "perfect"
       else if |t - (c.start_time + c.target_y / c.speed)| ≤ c.good_window
       then some "good"
       else some "hit") := by
  have harg : t - c.start_time - c.target_y / c.speed
      = t - (c.start_time + c.target_y / c.speed) := by ring
  simp only [FallingNote.check_hit, hs, hn, ne_eq, not_true_eq_false,
    if_false, ite_false, harg]
  split_ifs <;> simp

/-! ## C1: hit classification -/

/-- C1: a press with no `Active` (falling) note of that pitch yields
`NoMatch` with no note changed; a press with a selected candidate is
classified `Perfect` within 0.05 s of the target time, `Good` within
0.15 s, plain `Hit` beyond, and the candidate is marked `HIT` in all three
cases. -/
theorem hit_classification
    (notesA : List FallingNote) (pitchA : ℤ) (tA : ℚ)
    (hA : ∀ n ∈ notesA, ¬(n.status = NoteStatus.FALLING ∧ n.note_number = pitchA))
    (notesB : List FallingNote) (pitchB : ℤ) (tB : ℚ) (i : ℕ) (c : FallingNote)
    (hw : c.perfect_window = 1/20 ∧ c.good_window = 3/20)
    (hsel : selectEarliest notesB pitchB = some (i, c)) :
    on_input notesA pitchA tA = (MatchResult.NoMatch, notesA)
    ∧ (on_input notesB pitchB tB).1 =
        (if |tB - (c.start_time + c.target_y / c.speed)| ≤ 1/20
         then MatchResult.Perfect
         else if |tB - (c.start_time + c.target_y / c.speed)| ≤ 3/20
         then MatchResult.Good
         else MatchResult.Hit)
    ∧ (on_input notesB pitchB tB).2 = notesB.set i ((c.check_hit pitchB tB).2)
    ∧ ((c.check_hit pitchB tB).2).status = NoteStatus.HIT := by
  obtain ⟨hgi, hs, hn, _⟩ := selectEarliest_eq_some notesB pitchB i c hsel
  have hch := check_hit_candidate c pitchB tB hs hn
  refine ⟨?_, ?_, ?_, hch.1⟩
  · unfold on_input
    rw [selectEarliest_eq_none notesA pitchA hA]
  · unfold on_input
    rw [hsel]
    simp only [hch.2, hw.1, hw.2]
    split_ifs <;> rfl
  · unfold on_input
    rw [hsel]

/-- Witness for C1: pressing 61 against two falling 60s is a `NoMatch`
leaving them untouched; pressing 60 classifies the earlier note by its
timing error and marks it `HIT`. -/
theorem hit_classification_witness :
    on_input demoNotes 61 3 = (MatchResult.NoMatch, demoNotes)
    ∧ (on_input demoNotes 60 3).1 =
        (if |(3 : ℚ) - (demoN1.start_time + demoN1.target_y / demoN1.speed)| ≤ 1/20
         then MatchResult.Perfect
         else if |(3 : ℚ) - (demoN1.start_time + demoN1.target_y / demoN1.speed)| ≤ 3/20
         then MatchResult.Good
         else MatchResult.Hit)
    ∧ (on_input demoNotes 60 3).2 = demoNotes.set 0 ((demoN1.check_hit 60 3).2)
    ∧ ((demoN1.check_hit 60 3).2).status = NoteStatus.HIT :=
  hit_classification demoNotes 61 3 (by decide) demoNotes 60 3 0 demoN1
    ⟨rfl, rfl⟩ rfl

/-! ## C3: earliest-spawned candidate wins -/

/-- C3: when `selectEarliest` picks a candidate it is an `Active` (falling)
note of the pressed pitch sitting at the reported index, its spawn time is
minimal among all such notes (the Boolean scan below encodes that every
same-pitch falling note spawns no earlier), and the press updates exactly
that index — via `check_hit`, which marks it `HIT` — leaving every other
note, including any later-spawned duplicate, unmodified. -/
theorem earliest_candidate_selected
    (notes : List FallingNote) (pitch : ℤ) (t : ℚ) (i : ℕ) (c : FallingNote)
    (hsel : selectEarliest notes pitch = some (i, c)) :
    notes[i]? = some c
    ∧ c.status = NoteStatus.FALLING ∧ c.note_number = pitch
    ∧ (notes.all fun n =>
        !(decide (n.status = NoteStatus.FALLING ∧ n.note_number = pitch))
          || decide (c.start_time ≤ n.start_time)) = true
    ∧ (on_input notes pitch t).2 = notes.set i ((c.check_hit pitch t).2)
    ∧ ((c.check_hit pitch t).2).status = NoteStatus.HIT := by
  obtain ⟨hgi, hs, hn, hmin⟩ := selectEarliest_eq_some notes pitch i c hsel
  refine ⟨hgi, hs, hn, ?_, ?_, (check_hit_candidate c pitch t hs hn).1⟩
  · rw [List.all_eq_true]
    intro n hnn
    by_cases hc : n.status = NoteStatus.FALLING ∧ n.note_number = pitch
    · simp [hc, hmin n hnn hc.1 hc.2]
    · simp [hc]
  · unfold on_input
    rw [hsel]

/-- Witness for C3: with duplicates of pitch 60 spawned at 1 s and 2 s, the
press selects index 0 (spawn 1 s), marks it `HIT`, and only that index is
rewritten. -/
theorem earliest_candidate_selected_witness :
    demoNotes[0]? = some demoN1
    ∧ demoN1.status = NoteStatus.FALLING ∧ demoN1.note_number = 60
    ∧ (demoNotes.all fun n =>
        !(decide (n.status = NoteStatus.FALLING ∧ n.note_number = 60))
          || decide (demoN1.start_time ≤ n.start_time)) = true
    ∧ (on_input demoNotes 60 3).2 = demoNotes.set 0 ((demoN1.check_hit 60 3).2)
    ∧ ((demoN1.check_hit 60 3).2).status = NoteStatus.HIT :=
  earliest_candidate_selected demoNotes 60 3 0 demoN1 rfl
